import Mathlib

/-!
Verification of the finance-ledger module `main.py` of Finanzas_app.

The module is shallowly embedded: the mutable object `GestorFinanzas` becomes
a value of the structure `Gestor` that every method receives and (for methods
that can mutate) returns; Python `float` amounts become exact rationals `ℚ`
(faithful whenever the concrete values and their sums are exactly
representable, as they are in every test vector below); the JSON file behind
`db_path` becomes a field `file : Option FileContent`, where `FileContent`
is the outcome of parsing the file (`Except.error` models text that
`json.load` rejects, `Except.ok j` models text that parses to the JSON
value `j`); raised `ValueError` / `TypeError` / `json.JSONDecodeError`
exceptions become the constructors of `Err`, named after the specification's
error taxonomy.  `date.today().isoformat()` is an ambient input and is passed
to `agregar_movimiento` as an explicit argument `today`.
-/

namespace Finanzas

/-- Whitespace recognised by Python `str.strip()` with no argument
(restricted to the ASCII range, which covers every string the claims use). -/
def isPySpace (c : Char) : Bool :=
  c = ' ' || c = '\t' || c = '\n' || c = '\x0d' || c = '\x0b' || c = '\x0c'

/-- Python `s.strip()`: drop leading and trailing whitespace. -/
def pyStrip (s : String) : String :=
  String.mk (((s.data.dropWhile isPySpace).reverse.dropWhile isPySpace).reverse)

/-- The dataclass `Movimiento` of main.py (fields in declaration order:
tipo, monto, categoria, descripcion, fecha). -/
structure Movimiento where
  tipo : String
  monto : ℚ
  categoria : String
  descripcion : String
  fecha : String
deriving DecidableEq, Repr

/-- The error taxonomy of the specification, naming the exceptions the code
raises: `invalidKind` and `invalidAmount` are the two `ValueError`s of
`agregar_movimiento` / `resumen_por_categoria`; `corruptStore` is
`json.JSONDecodeError`; `malformedRecord` is the `TypeError` raised while
building `Movimiento` values from loaded data. -/
inductive Err where
  | invalidKind
  | invalidAmount
  | corruptStore
  | malformedRecord
deriving DecidableEq, Repr

/-- JSON values, at the level `json.load` / `json.dump` exchange them. -/
inductive Json where
  | null
  | bool (b : Bool)
  | num (q : ℚ)
  | str (s : String)
  | arr (items : List Json)
  | obj (fields : List (String × Json))

/-- `asdict(m)` followed by `json.dump`: one JSON object, keys in dataclass
declaration order. -/
def Movimiento.toJson (m : Movimiento) : Json :=
  Json.obj [("tipo", Json.str m.tipo), ("monto", Json.num m.monto),
    ("categoria", Json.str m.categoria), ("descripcion", Json.str m.descripcion),
    ("fecha", Json.str m.fecha)]

/-- The five field names of the dataclass `Movimiento`. -/
def requiredKeys : List String :=
  ["tipo", "monto", "categoria", "descripcion", "fecha"]

/-- Dictionary lookup on the field list of a JSON object. -/
def getField : List (String × Json) → String → Option Json
  | [], _ => none
  | (k, v) :: rest, key => if k = key then some v else getField rest key

/-- `Movimiento(**item)`: succeeds exactly when `item` is an object whose key
set is exactly the five dataclass fields (a missing key or an unexpected key
raises `TypeError`, as does a non-mapping item).  The Python dataclass does
not check the field values' types; this embedding additionally requires the
JSON types to match the dataclass annotations, which agrees with Python on
every file `_guardar` can produce. -/
def decodeMovimiento (j : Json) : Except Err Movimiento :=
  match j with
  | Json.obj fields =>
    if List.Perm (fields.map Prod.fst) requiredKeys then
      match getField fields ("tipo"), getField fields ("monto"),
          getField fields ("categoria"), getField fields ("descripcion"),
          getField fields ("fecha") with
      | some (Json.str t), some (Json.num mo), some (Json.str c),
          some (Json.str d), some (Json.str f) =>
        Except.ok { tipo := t, monto := mo, categoria := c, descripcion := d, fecha := f }
      | _, _, _, _, _ => Except.error Err.malformedRecord
    else Except.error Err.malformedRecord
  | _ => Except.error Err.malformedRecord

/-- The list comprehension `[Movimiento(**item) for item in data]`: items are
decoded left to right and the first failure aborts the whole load. -/
def cargarLista : List Json → Except Err (List Movimiento)
  | [] => Except.ok []
  | j :: rest =>
    match decodeMovimiento j with
    | Except.error e => Except.error e
    | Except.ok m =>
      match cargarLista rest with
      | Except.error e => Except.error e
      | Except.ok ms => Except.ok (m :: ms)

/-- What parsing the file at `db_path` yields: `Except.error ()` models file
text that `json.load` rejects, `Except.ok j` models text parsing to `j`. -/
abbrev FileContent := Except Unit Json

/-- `_cargar`: missing file yields the empty list; unparseable text raises
`json.JSONDecodeError` (`corruptStore`); a parsed array is decoded item by
item.  A parsed non-array value is iterated by the list comprehension: an
empty object or empty string iterates to nothing (yielding an empty ledger),
every other non-array value raises `TypeError` (`malformedRecord`). -/
def cargarMovimientos (file : Option FileContent) : Except Err (List Movimiento) :=
  match file with
  | none => Except.ok []
  | some (Except.error _) => Except.error Err.corruptStore
  | some (Except.ok (Json.arr items)) => cargarLista items
  | some (Except.ok (Json.obj [])) => Except.ok []
  | some (Except.ok (Json.str s)) =>
    if s.isEmpty then Except.ok [] else Except.error Err.malformedRecord
  | some (Except.ok _) => Except.error Err.malformedRecord

/-- The `GestorFinanzas` object: its in-memory list `self.movimientos` and
the content of the file at `self.db_path`. -/
structure Gestor where
  movimientos : List Movimiento
  file : Option FileContent

/-- `GestorFinanzas(db_path)`: run `_cargar` on the file found at the path.
Uncaught exceptions of `_cargar` make construction fail. -/
def construct (file : Option FileContent) : Except Err Gestor :=
  match cargarMovimientos file with
  | Except.error e => Except.error e
  | Except.ok ms => Except.ok { movimientos := ms, file := file }

/-- A gestor constructed on a path where no file exists yet. -/
def initGestor : Gestor := { movimientos := [], file := none }

/-- `_guardar`: serialize every movimiento and overwrite the whole file. -/
def guardar (ms : List Movimiento) : Option FileContent :=
  some (Except.ok (Json.arr (ms.map Movimiento.toJson)))

/-- The `Movimiento(...)` constructor call inside `agregar_movimiento`:
category trimmed with the empty result replaced by "general" (Python
`categoria.strip() or "general"`), description trimmed, and
`fecha or date.today().isoformat()`, where Python `or` falls through both
when `fecha` is `None` and when it is the empty string.  `today` stands for
`date.today().isoformat()`. -/
def nuevoMovimiento (tipo : String) (monto : ℚ) (categoria : String)
    (descripcion : String) (fecha : Option String) (today : String) : Movimiento :=
  { tipo := tipo
    monto := monto
    categoria := if (pyStrip categoria).isEmpty then "general" else pyStrip categoria
    descripcion := pyStrip descripcion
    fecha :=
      match fecha with
      | some f => if f.isEmpty then today else f
      | none => today }

/-- `agregar_movimiento(tipo, monto, categoria, descripcion, fecha)`.
The pair returned is the object after the call together with the call's
outcome; on an invalid kind or amount the raise happens before any mutation,
so the object is returned unchanged. -/
def agregar_movimiento (g : Gestor) (tipo : String) (monto : ℚ)
    (categoria : String) (descripcion : String) (fecha : Option String)
    (today : String) : Gestor × Except Err Movimiento :=
  if ¬(tipo = "ingreso" ∨ tipo = "gasto") then
    (g, Except.error Err.invalidKind)
  else if monto ≤ 0 then
    (g, Except.error Err.invalidAmount)
  else
    let m : Movimiento := nuevoMovimiento tipo monto categoria descripcion fecha today
    let ms := g.movimientos ++ [m]
    ({ movimientos := ms, file := guardar ms }, Except.ok m)

/-- Round-half-to-even to an integer, the behaviour of Python `round` on the
exact value of its argument. -/
def roundHalfEvenInt (x : ℚ) : ℤ :=
  let f := ⌊x⌋
  let r := x - (f : ℚ)
  if r < 1 / 2 then f
  else if 1 / 2 < r then f + 1
  else if f % 2 = 0 then f else f + 1

/-- Python `round(x, 2)` on the exact rational value of `x`. -/
def pyRound2 (x : ℚ) : ℚ := (roundHalfEvenInt (x * 100) : ℚ) / 100

/-- The dictionary `resumen` returns, with its three keys. -/
structure Resumen where
  ingresos : ℚ
  gastos : ℚ
  balance : ℚ
deriving DecidableEq, Repr

/-- `resumen()`: sum the amounts of each kind, round the two sums and their
difference.  The object is returned unchanged alongside the result. -/
def resumen (g : Gestor) : Gestor × Resumen :=
  let ingresos :=
    (g.movimientos.filter fun m => m.tipo == "ingreso").foldl (fun acc m => acc + m.monto) 0
  let gastos :=
    (g.movimientos.filter fun m => m.tipo == "gasto").foldl (fun acc m => acc + m.monto) 0
  (g, { ingresos := pyRound2 ingresos, gastos := pyRound2 gastos,
        balance := pyRound2 (ingresos - gastos) })

/-- `totales[mov.categoria] = totales.get(mov.categoria, 0.0) + mov.monto`:
update an existing key in place, append a fresh key at the end, exactly the
observable behaviour of a Python dict assignment. -/
def updateTotales : List (String × ℚ) → String → ℚ → List (String × ℚ)
  | [], cat, monto => [(cat, monto)]
  | (c, v) :: rest, cat, monto =>
    if c = cat then (c, v + monto) :: rest
    else (c, v) :: updateTotales rest cat monto

/-- The accumulation loop of `resumen_por_categoria`: entries of the other
kind are skipped (`continue`), matching entries feed the dict update. -/
def totalesOf (tipo : String) : List Movimiento → List (String × ℚ) → List (String × ℚ)
  | [], t => t
  | m :: rest, t =>
    totalesOf tipo rest (if m.tipo = tipo then updateTotales t m.categoria m.monto else t)

/-- The value `resumen_por_categoria` returns for a valid kind:
`sorted(totales.items())` followed by rounding each total.  Keys in the
accumulated dict are unique, so sorting tuples by their first component is
the behaviour of Python `sorted` here. -/
def categoriaOut (ms : List Movimiento) (tipo : String) : List (String × ℚ) :=
  ((totalesOf tipo ms []).insertionSort fun p q => p.1 ≤ q.1).map fun p => (p.1, pyRound2 p.2)

/-- `resumen_por_categoria(tipo)`: validate the kind, accumulate per-category
totals, return them sorted by category with rounded values.  The object is
returned unchanged alongside the result. -/
def resumen_por_categoria (g : Gestor) (tipo : String) :
    Gestor × Except Err (List (String × ℚ)) :=
  if ¬(tipo = "ingreso" ∨ tipo = "gasto") then
    (g, Except.error Err.invalidKind)
  else
    (g, Except.ok (categoriaOut g.movimientos tipo))

/-- `listar()`: `list(self.movimientos)`, a copy of the list.  At the level
of field values the copy is the list itself; the sharing of the elements is
studied separately in the reference-semantics model below. -/
def listar (g : Gestor) : Gestor × List Movimiento :=
  (g, g.movimientos)

/-- One call to `agregar_movimiento`, for iterating the operation. -/
structure AddCall where
  tipo : String
  monto : ℚ
  categoria : String
  descripcion : String
  fecha : Option String
  today : String

/-- Perform a sequence of `agregar_movimiento` calls, keeping the object
state each call returns (failed calls leave it unchanged). -/
def addAll (g : Gestor) : List AddCall → Gestor
  | [] => g
  | c :: rest =>
    addAll (agregar_movimiento g c.tipo c.monto c.categoria c.descripcion c.fecha c.today).1 rest

/-!
Reference-semantics model of `listar`, for the snapshot claim.  Python's
`list(self.movimientos)` copies the list but not its elements: the dataclass
`Movimiento` is not frozen, and the copied list holds references to the very
objects the store holds.  Here `Movimiento` objects live on a heap (a list
indexed by reference), the store holds references, and `listarRef` returns a
copy of that reference list.
-/

/-- The heap of allocated `Movimiento` objects; a reference is an index. -/
abbrev Heap := List Movimiento

/-- The store's own list, holding references into the heap. -/
structure GestorRef where
  movRefs : List Nat

/-- `list(self.movimientos)`: a fresh list containing the same references. -/
def listarRef (g : GestorRef) : List Nat :=
  g.movRefs

/-- The entries the store observes (and would serialize on the next save):
each held reference read back from the heap. -/
def readEntries (h : Heap) (g : GestorRef) : List (Option Movimiento) :=
  g.movRefs.map fun r => h.get? r

/-- The caller's in-place mutation `mov.monto = v` on the object behind
reference `r`. -/
def heapSetMonto : Heap → Nat → ℚ → Heap
  | [], _, _ => []
  | m :: rest, 0, v => { m with monto := v } :: rest
  | m :: rest, r + 1, v => m :: heapSetMonto rest r v

/-!  Specification-side functions the theorems compare the code against. -/

/-- Sum of the amounts of the entries of one kind. -/
def sumKind (ms : List Movimiento) (tipo : String) : ℚ :=
  ((ms.filter fun m => m.tipo == tipo).map Movimiento.monto).sum

/-- Sum of the amounts of the entries of one kind and one category. -/
def sumKindCat (ms : List Movimiento) (tipo c : String) : ℚ :=
  ((ms.filter fun m => m.tipo == tipo && m.categoria == c).map Movimiento.monto).sum

/-- Modelled from the spec: the rounding claim C4 and the specification
prescribe, half-up at .5 to 2 decimal places, stated here only to be
compared against the code's rounding. -/
def specRoundHalfUp2 (x : ℚ) : ℚ := (⌊x * 100 + 1 / 2⌋ : ℚ) / 100

/-- Value associated with a key in an association list (the view under which
the accumulated dict of `resumen_por_categoria` is analysed). -/
def lookupV : List (String × ℚ) → String → Option ℚ
  | [], _ => none
  | (k, v) :: rest, c => if k = c then some v else lookupV rest c

/-- A JSON value that is an object missing one of the five required fields. -/
def MissingField (j : Json) : Prop :=
  ∃ fields, j = Json.obj fields ∧ ∃ k ∈ requiredKeys, k ∉ fields.map Prod.fst

/-- A JSON value that is an object carrying a key outside the five required
fields. -/
def ExtraField (j : Json) : Prop :=
  ∃ fields, j = Json.obj fields ∧ ∃ k ∈ fields.map Prod.fst, k ∉ requiredKeys

/-- Test fixture: the ledger of claim C4's concrete example. -/
def gestorEjemplo : Gestor :=
  { movimientos :=
      [{ tipo := "ingreso", monto := 100, categoria := "a", descripcion := "", fecha := "2024-01-01" },
       { tipo := "gasto", monto := 40, categoria := "b", descripcion := "", fecha := "2024-01-01" },
       { tipo := "gasto", monto := 10, categoria := "c", descripcion := "", fecha := "2024-01-01" }],
    file := none }

/-- Test fixture: the ledger of claim C5's concrete example. -/
def gestorCategorias : Gestor :=
  { movimientos :=
      [{ tipo := "gasto", monto := 10, categoria := "food", descripcion := "", fecha := "2024-01-01" },
       { tipo := "gasto", monto := 5, categoria := "food", descripcion := "", fecha := "2024-01-01" },
       { tipo := "gasto", monto := 20, categoria := "rent", descripcion := "", fecha := "2024-01-01" }],
    file := none }

/-- Test fixture: a single income of 1/8 (the decimal 0.125), the tie case
separating round-half-even from round-half-up. -/
def mvOctavo : Movimiento :=
  { tipo := "ingreso"
    monto := 1 / 8
    categoria := "a"
    descripcion := ""
    fecha := "2024-01-01" }

/-- Test fixture: the ledger holding only `mvOctavo`. -/
def gestorOctavo : Gestor := { movimientos := [mvOctavo], file := none }

/-- Test fixture: an income of 100, the single heap object of the snapshot
counterexample. -/
def mvCien : Movimiento :=
  { tipo := "ingreso"
    monto := 100
    categoria := "general"
    descripcion := ""
    fecha := "2024-01-01" }

/-- Test fixture: the one-object heap for the snapshot counterexample. -/
def heapUno : Heap := [mvCien]

/-- Test fixture: a two-object heap. -/
def heapDos : Heap :=
  [{ tipo := "ingreso", monto := 3, categoria := "a", descripcion := "", fecha := "2024-01-01" },
   { tipo := "gasto", monto := 4, categoria := "b", descripcion := "", fecha := "2024-01-01" }]

/-!  Helper lemmas. -/

theorem agregar_valid (g : Gestor) (tipo : String) (monto : ℚ)
    (categoria descripcion : String) (fecha : Option String) (today : String)
    (hk : tipo = "ingreso" ∨ tipo = "gasto") (hm : 0 < monto) :
    agregar_movimiento g tipo monto categoria descripcion fecha today =
      ({ movimientos := g.movimientos ++ [nuevoMovimiento tipo monto categoria descripcion fecha today]
         file := guardar (g.movimientos ++ [nuevoMovimiento tipo monto categoria descripcion fecha today]) },
       Except.ok (nuevoMovimiento tipo monto categoria descripcion fecha today)) := by
  unfold agregar_movimiento
  rw [if_neg (not_not_intro hk), if_neg (not_le.mpr hm)]

/-- C1: a valid `Add` appends exactly the normalized entry, and `List`
afterwards ends with it: kind and amount are the inputs, the category is the
trimmed input with the empty result replaced by "general", the description
is the trimmed input. -/
theorem add_then_list_last (g : Gestor) (tipo : String) (monto : ℚ)
    (categoria descripcion : String) (fecha : Option String) (today : String)
    (hk : tipo = "ingreso" ∨ tipo = "gasto") (hm : 0 < monto) :
    (listar (agregar_movimiento g tipo monto categoria descripcion fecha today).1).2.getLast?
      = some (nuevoMovimiento tipo monto categoria descripcion fecha today)
    ∧ (agregar_movimiento g tipo monto categoria descripcion fecha today).2
      = Except.ok (nuevoMovimiento tipo monto categoria descripcion fecha today)
    ∧ (nuevoMovimiento tipo monto categoria descripcion fecha today).tipo = tipo
    ∧ (nuevoMovimiento tipo monto categoria descripcion fecha today).monto = monto
    ∧ (nuevoMovimiento tipo monto categoria descripcion fecha today).categoria
      = (if (pyStrip categoria).isEmpty then "general" else pyStrip categoria)
    ∧ (nuevoMovimiento tipo monto categoria descripcion fecha today).descripcion
      = pyStrip descripcion := by
  rw [agregar_valid g tipo monto categoria descripcion fecha today hk hm]
  exact ⟨List.getLast?_concat _, rfl, rfl, rfl, rfl, rfl⟩

/-- Concrete run of C1: adding an income of 5 with the whitespace-only
category "  " stores category "general", and `List` ends with the entry. -/
theorem add_then_list_last_witness :
    (("ingreso" : String) = "ingreso" ∨ ("ingreso" : String) = "gasto")
    ∧ (0 : ℚ) < 5
    ∧ (listar (agregar_movimiento initGestor ("ingreso") 5 ("  ") (" x ") none ("2026-01-01")).1).2.getLast?
      = some (nuevoMovimiento ("ingreso") 5 ("  ") (" x ") none ("2026-01-01"))
    ∧ (nuevoMovimiento ("ingreso") 5 ("  ") (" x ") none ("2026-01-01")).categoria = "general" :=
  ⟨Or.inl rfl, by norm_num,
   (add_then_list_last initGestor ("ingreso") 5 ("  ") (" x ") none ("2026-01-01")
     (Or.inl rfl) (by norm_num)).1,
   by decide⟩

/-- C3: an invalid kind is rejected with `invalidKind`, a valid kind with a
non-positive amount is rejected with `invalidAmount`, and in both cases the
returned state — in-memory list and file alike — is exactly the state before
the call. -/
theorem add_invalid_rejects (g : Gestor) (tipo : String) (monto : ℚ)
    (categoria descripcion : String) (fecha : Option String) (today : String) :
    (¬(tipo = "ingreso" ∨ tipo = "gasto") →
      agregar_movimiento g tipo monto categoria descripcion fecha today
        = (g, Except.error Err.invalidKind))
    ∧ ((tipo = "ingreso" ∨ tipo = "gasto") → monto ≤ 0 →
      agregar_movimiento g tipo monto categoria descripcion fecha today
        = (g, Except.error Err.invalidAmount)) := by
  constructor
  · intro h
    unfold agregar_movimiento
    rw [if_pos h]
  · intro hk hm
    unfold agregar_movimiento
    rw [if_neg (not_not_intro hk), if_pos hm]

/-- Concrete runs of C3: kind "otro" is rejected as an invalid kind, and a
zero amount on a valid kind is rejected as an invalid amount, each leaving
the fresh store untouched. -/
theorem add_invalid_rejects_witness :
    ¬(("otro" : String) = "ingreso" ∨ ("otro" : String) = "gasto")
    ∧ (0 : ℚ) ≤ 0
    ∧ agregar_movimiento initGestor ("otro") 5 ("c") ("") none ("2026-01-01")
      = (initGestor, Except.error Err.invalidKind)
    ∧ agregar_movimiento initGestor ("gasto") 0 ("c") ("") none ("2026-01-01")
      = (initGestor, Except.error Err.invalidAmount) :=
  ⟨by decide, le_refl 0,
   (add_invalid_rejects initGestor ("otro") 5 ("c") ("") none ("2026-01-01")).1 (by decide),
   (add_invalid_rejects initGestor ("gasto") 0 ("c") ("") none ("2026-01-01")).2
     (Or.inr rfl) (le_refl 0)⟩

/-- C9: `resumen`, `resumen_por_categoria` and `listar` return the object
exactly as it was — same in-memory list, same file content; only
`agregar_movimiento` produces a changed object. -/
theorem read_ops_pure (g : Gestor) (tipo : String) :
    (resumen g).1 = g ∧ (resumen_por_categoria g tipo).1 = g ∧ (listar g).1 = g := by
  refine ⟨rfl, ?_, rfl⟩
  unfold resumen_por_categoria
  split
  · rfl
  · rfl

/-- C8 counterexample: a date value IS supplied — the empty string — with a
valid kind and amount, yet the stored date is `today`, not the supplied
string verbatim. -/
theorem fecha_empty_not_verbatim :
    (agregar_movimiento initGestor ("ingreso") 1 ("comida") ("") (some ("")) ("2026-10-12")).2
      = Except.ok { tipo := "ingreso", monto := 1, categoria := "comida",
                    descripcion := "", fecha := "2026-10-12" }
    ∧ ("2026-10-12" : String) ≠ "" := by
  constructor
  · rw [agregar_valid initGestor ("ingreso") 1 ("comida") ("") (some ("")) ("2026-10-12")
      (Or.inl rfl) (by norm_num)]
    rfl
  · decide

/-- C8 amended: a supplied non-empty date string is stored verbatim; an
omitted date, and likewise a supplied empty string (Python `fecha or ...`
treats both the same), is replaced by the current date `today`. -/
theorem fecha_resolution (g : Gestor) (tipo : String) (monto : ℚ)
    (categoria descripcion : String) (s today : String)
    (hk : tipo = "ingreso" ∨ tipo = "gasto") (hm : 0 < monto) :
    ((agregar_movimiento g tipo monto categoria descripcion (some s) today).2
      = Except.ok (nuevoMovimiento tipo monto categoria descripcion (some s) today))
    ∧ (nuevoMovimiento tipo monto categoria descripcion (some s) today).fecha
      = (if s.isEmpty then today else s)
    ∧ ((agregar_movimiento g tipo monto categoria descripcion none today).2
      = Except.ok (nuevoMovimiento tipo monto categoria descripcion none today))
    ∧ (nuevoMovimiento tipo monto categoria descripcion none today).fecha = today := by
  rw [agregar_valid g tipo monto categoria descripcion (some s) today hk hm,
    agregar_valid g tipo monto categoria descripcion none today hk hm]
  exact ⟨rfl, rfl, rfl, rfl⟩

/-- Concrete run of the amended C8: the supplied date "2030-05-05" is kept
verbatim, and an omitted date becomes `today`. -/
theorem fecha_resolution_witness :
    (("gasto" : String) = "ingreso" ∨ ("gasto" : String) = "gasto")
    ∧ (0 : ℚ) < 3
    ∧ (nuevoMovimiento ("gasto") 3 ("c") ("") (some ("2030-05-05")) ("2026-10-12")).fecha
      = (if ("2030-05-05" : String).isEmpty then ("2026-10-12") else ("2030-05-05"))
    ∧ (nuevoMovimiento ("gasto") 3 ("c") ("") none ("2026-10-12")).fecha = "2026-10-12" := by
  have h := fecha_resolution initGestor ("gasto") 3 ("c") ("") ("2030-05-05") ("2026-10-12")
    (Or.inr rfl) (by norm_num)
  exact ⟨Or.inr rfl, by norm_num, h.2.1, h.2.2.2⟩

/-- C10: `Add` never inspects the format of a supplied non-empty date string
— any such string is stored verbatim when kind and amount are valid — and
the only errors `Add` can raise are `invalidKind` and `invalidAmount`. -/
theorem fecha_unvalidated (g : Gestor) (tipo : String) (monto : ℚ)
    (categoria descripcion d : String) (today : String)
    (hk : tipo = "ingreso" ∨ tipo = "gasto") (hm : 0 < monto) (hd : ¬d.isEmpty) :
    ((agregar_movimiento g tipo monto categoria descripcion (some d) today).2
      = Except.ok (nuevoMovimiento tipo monto categoria descripcion (some d) today))
    ∧ (nuevoMovimiento tipo monto categoria descripcion (some d) today).fecha = d
    ∧ (∀ (g' : Gestor) (t' : String) (mo' : ℚ) (c' d' : String) (f' : Option String)
        (td' : String) (e : Err),
        (agregar_movimiento g' t' mo' c' d' f' td').2 = Except.error e →
        e = Err.invalidKind ∨ e = Err.invalidAmount) := by
  refine ⟨(agregar_valid g tipo monto categoria descripcion (some d) today hk hm) ▸ rfl,
    ?_, ?_⟩
  · show (match some d with
      | some f => if f.isEmpty then today else f
      | none => today) = d
    simp [hd]
  · intro g' t' mo' c' d' f' td' e he
    unfold agregar_movimiento at he
    by_cases h1 : t' = "ingreso" ∨ t' = "gasto"
    · rw [if_neg (not_not_intro h1)] at he
      by_cases h2 : mo' ≤ 0
      · rw [if_pos h2] at he
        injection he with h
        exact Or.inr h.symm
      · rw [if_neg h2] at he
        exact absurd he (by simp)
    · rw [if_pos h1] at he
      injection he with h
      exact Or.inl h.symm

/-- Concrete run of C10: the string "not-a-date" is accepted and stored
verbatim as the date. -/
theorem fecha_unvalidated_witness :
    (("gasto" : String) = "ingreso" ∨ ("gasto" : String) = "gasto")
    ∧ (0 : ℚ) < 2
    ∧ ¬("not-a-date" : String).isEmpty
    ∧ ((agregar_movimiento initGestor ("gasto") 2 ("x") ("") (some ("not-a-date")) ("2026-10-12")).2
      = Except.ok (nuevoMovimiento ("gasto") 2 ("x") ("") (some ("not-a-date")) ("2026-10-12")))
    ∧ (nuevoMovimiento ("gasto") 2 ("x") ("") (some ("not-a-date")) ("2026-10-12")).fecha
      = "not-a-date" := by
  have h := fecha_unvalidated initGestor ("gasto") 2 ("x") ("") ("not-a-date") ("2026-10-12")
    (Or.inr rfl) (by norm_num) (by decide)
  exact ⟨Or.inr rfl, by norm_num, by decide, h.1, h.2.1⟩

theorem decode_toJson (m : Movimiento) : decodeMovimiento m.toJson = Except.ok m := rfl

theorem cargarLista_map_toJson (ms : List Movimiento) :
    cargarLista (ms.map Movimiento.toJson) = Except.ok ms := by
  induction ms with
  | nil => rfl
  | cons m rest ih => simp [cargarLista, decode_toJson, ih]

theorem cargar_guardar (ms : List Movimiento) :
    cargarMovimientos (guardar ms) = Except.ok ms := by
  simp [cargarMovimientos, guardar, cargarLista_map_toJson]

theorem agregar_inv (g : Gestor) (tipo : String) (monto : ℚ)
    (categoria descripcion : String) (fecha : Option String) (today : String)
    (h : cargarMovimientos g.file = Except.ok g.movimientos) :
    cargarMovimientos (agregar_movimiento g tipo monto categoria descripcion fecha today).1.file
      = Except.ok (agregar_movimiento g tipo monto categoria descripcion fecha today).1.movimientos := by
  by_cases h1 : tipo = "ingreso" ∨ tipo = "gasto"
  · by_cases h2 : monto ≤ 0
    · simpa [agregar_movimiento, h1, h2] using h
    · simp [agregar_movimiento, h1, h2, cargar_guardar]
  · simpa [agregar_movimiento, h1] using h

theorem addAll_inv (calls : List AddCall) :
    ∀ g : Gestor, cargarMovimientos g.file = Except.ok g.movimientos →
      cargarMovimientos (addAll g calls).file = Except.ok (addAll g calls).movimientos := by
  induction calls with
  | nil => exact fun g h => h
  | cons c rest ih =>
    intro g h
    exact ih _ (agregar_inv g c.tipo c.monto c.categoria c.descripcion c.fecha c.today h)

/-- C2: after any sequence of `Add` calls on a store that started on a fresh
path (so in particular after writing any N valid entries, each call saving
the whole file), constructing a new store from the same path yields exactly
the same entries, in the same order, every field identical. -/
theorem store_roundtrip (calls : List AddCall) :
    construct (addAll initGestor calls).file = Except.ok (addAll initGestor calls) := by
  have h := addAll_inv calls initGestor rfl
  unfold construct
  rw [h]

theorem decode_error_malformed (j : Json) (e : Err)
    (h : decodeMovimiento j = Except.error e) : e = Err.malformedRecord := by
  unfold decodeMovimiento at h
  cases j <;> simp_all
  next fields =>
    split at h
    · split at h <;> simp_all
    · simp_all

theorem decode_bad (j : Json) (h : MissingField j ∨ ExtraField j) :
    decodeMovimiento j = Except.error Err.malformedRecord := by
  obtain ⟨fields, rfl, k, hk, hnk⟩ | ⟨fields, rfl, k, hk, hnk⟩ := h
  · have hp : ¬ (fields.map Prod.fst).Perm requiredKeys :=
      fun hperm => hnk (hperm.mem_iff.mpr hk)
    simp [decodeMovimiento, hp]
  · have hp : ¬ (fields.map Prod.fst).Perm requiredKeys :=
      fun hperm => hnk (hperm.mem_iff.mp hk)
    simp [decodeMovimiento, hp]

theorem cargarLista_error (items : List Json) (j : Json) (hj : j ∈ items)
    (hdec : decodeMovimiento j = Except.error Err.malformedRecord) :
    cargarLista items = Except.error Err.malformedRecord := by
  induction items with
  | nil => cases hj
  | cons a rest ih =>
    rcases List.mem_cons.mp hj with h | h
    · subst h
      simp [cargarLista, hdec]
    · cases hda : decodeMovimiento a with
      | error e =>
        have := decode_error_malformed a e hda
        subst this
        simp [cargarLista, hda]
      | ok m =>
        simp [cargarLista, hda, ih h]

/-- C6: construction on a missing file yields an empty ledger and no error;
on a file whose text does not parse it fails with `corruptStore`; and on a
file that parses to an array containing an object with a missing required
field or an unrecognized extra field it fails with `malformedRecord`. -/
theorem construct_error_spec (items : List Json) (j : Json) (hj : j ∈ items)
    (hbad : MissingField j ∨ ExtraField j) :
    construct none = Except.ok initGestor
    ∧ construct (some (Except.error ())) = Except.error Err.corruptStore
    ∧ construct (some (Except.ok (Json.arr items))) = Except.error Err.malformedRecord := by
  refine ⟨rfl, rfl, ?_⟩
  have h := cargarLista_error items j hj (decode_bad j hbad)
  simp [construct, cargarMovimientos, h]

/-- Concrete run of C6: a record that only carries the key "tipo" is missing
required fields, so construction from a file holding it fails with
`malformedRecord`. -/
theorem construct_error_spec_witness :
    Json.obj [("tipo", Json.str (""))] ∈ [Json.obj [("tipo", Json.str (""))]]
    ∧ MissingField (Json.obj [("tipo", Json.str (""))])
    ∧ construct (some (Except.ok (Json.arr [Json.obj [("tipo", Json.str (""))]])))
      = Except.error Err.malformedRecord :=
  ⟨List.Mem.head _,
   ⟨[("tipo", Json.str (""))], rfl, ("monto"), by decide, by decide⟩,
   (construct_error_spec [Json.obj [("tipo", Json.str (""))]] (Json.obj [("tipo", Json.str (""))])
     (List.Mem.head _)
     (Or.inl ⟨[("tipo", Json.str (""))], rfl, ("monto"), by decide, by decide⟩)).2.2⟩

theorem foldl_monto (l : List Movimiento) (a : ℚ) :
    l.foldl (fun acc m => acc + m.monto) a = a + (l.map Movimiento.monto).sum := by
  induction l generalizing a with
  | nil => simp
  | cons m rest ih => simp [ih, add_assoc]

/-- C4 counterexample: on the single income 1/8 (= 0.125) the code returns
ingresos 0.12 — `round` ties to the even digit — while rounding the income
sum half-up at .5, as the claim prescribes, gives 0.13. -/
theorem resumen_not_half_up :
    (resumen gestorOctavo).2.ingresos = 12/100
    ∧ sumKind gestorOctavo.movimientos ("ingreso") = 1/8
    ∧ specRoundHalfUp2 (1/8) = 13/100
    ∧ ((12 : ℚ)/100) ≠ 13/100 := by
  have t1 : (("ingreso" : String) == "ingreso") = true := by decide
  have t2 : (("ingreso" : String) == "gasto") = false := by decide
  refine ⟨?_, ?_, ?_, by norm_num⟩
  · norm_num [resumen, gestorOctavo, mvOctavo, List.filter_cons, t1, t2,
      pyRound2, roundHalfEvenInt]
  · norm_num [sumKind, gestorOctavo, mvOctavo, List.filter_cons, t1]
  · norm_num [specRoundHalfUp2]

/-- C4 amended: `resumen` returns the income sum, the expense sum and their
difference, each rounded to 2 decimals with round-half-to-even (the rounding
Python `round` applies to the exact value), so on the claim's example
[(income 100), (expense 40), (expense 10)] it returns 100.00 / 50.00 / 50.00
and on the empty ledger 0.00 / 0.00 / 0.00. -/
theorem resumen_spec (g : Gestor) :
    resumen g = (g,
      { ingresos := pyRound2 (sumKind g.movimientos ("ingreso"))
        gastos := pyRound2 (sumKind g.movimientos ("gasto"))
        balance := pyRound2 (sumKind g.movimientos ("ingreso") - sumKind g.movimientos ("gasto")) })
    ∧ resumen initGestor = (initGestor, { ingresos := 0, gastos := 0, balance := 0 })
    ∧ (resumen gestorEjemplo).2 = { ingresos := 100, gastos := 50, balance := 50 } := by
  have t1 : (("ingreso" : String) == "ingreso") = true := by decide
  have t2 : (("ingreso" : String) == "gasto") = false := by decide
  have t3 : (("gasto" : String) == "gasto") = true := by decide
  have t4 : (("gasto" : String) == "ingreso") = false := by decide
  have e1 : pyRound2 100 = 100 := by norm_num [pyRound2, roundHalfEvenInt]
  have e2 : pyRound2 50 = 50 := by norm_num [pyRound2, roundHalfEvenInt]
  refine ⟨?_, ?_, ?_⟩
  · unfold resumen sumKind
    simp [foldl_monto]
  · norm_num [resumen, initGestor, pyRound2, roundHalfEvenInt]
  · norm_num [resumen, gestorEjemplo, List.filter_cons, t1, t2, t3, t4, e1, e2]

theorem heapSetMonto_get? (h : Heap) : ∀ (r : Nat) (v : ℚ),
    (heapSetMonto h r v).get? r = (h.get? r).map fun m => { m with monto := v } := by
  induction h with
  | nil => intro r v; cases r <;> rfl
  | cons m rest ih =>
    intro r v
    cases r with
    | zero => rfl
    | succ n => exact ih n v

/-- C7 counterexample: on a store holding one entry of amount 100, the
caller takes the snapshot returned by `listar`, picks its first element —
reference 0, the very object the store holds — and sets its amount to 1
in place; the entries the store observes (and would persist on the next
save) change. -/
theorem listar_snapshot_mutable :
    listarRef { movRefs := [0] } = [0]
    ∧ (listarRef { movRefs := [0] }).get? 0 = some 0
    ∧ readEntries heapUno { movRefs := [0] } = [some mvCien]
    ∧ readEntries (heapSetMonto heapUno 0 1) { movRefs := [0] }
      = [some { mvCien with monto := 1 }]
    ∧ readEntries (heapSetMonto heapUno 0 1) { movRefs := [0] }
      ≠ readEntries heapUno { movRefs := [0] } := by
  exact ⟨rfl, rfl, rfl, rfl, by decide⟩

/-- C7 amended: `listar` returns a list-level copy — a fresh sequence whose
elements are the store's own entry references — so reshaping the returned
list cannot touch the store, but an in-place field assignment on an element
obtained from it is an assignment on the store's own object: the entries the
store observes afterwards carry the new value. -/
theorem listar_shallow_copy (h : Heap) (g : GestorRef) (i : Nat) (v : ℚ)
    (hi : i < (listarRef g).length) :
    listarRef g = g.movRefs
    ∧ (readEntries (heapSetMonto h ((listarRef g).get ⟨i, hi⟩) v) g).get? i
      = some ((h.get? ((listarRef g).get ⟨i, hi⟩)).map fun m => { m with monto := v }) := by
  refine ⟨rfl, ?_⟩
  have hi' : i < g.movRefs.length := hi
  have step : (readEntries (heapSetMonto h ((listarRef g).get ⟨i, hi⟩) v) g).get? i
      = some ((heapSetMonto h ((listarRef g).get ⟨i, hi⟩) v).get? ((listarRef g).get ⟨i, hi⟩)) := by
    show ((g.movRefs.map fun r => (heapSetMonto h ((listarRef g).get ⟨i, hi⟩) v).get? r).get? i) = _
    rw [List.get?_map, List.get?_eq_get hi']
    rfl
  rw [step, heapSetMonto_get?]

/-- Concrete run of the amended C7: a two-entry heap, the store holding
reference 1; setting amount 7 through the snapshot's element 0 makes the
store observe the entry with amount 7. -/
theorem listar_shallow_copy_witness :
    (0 : Nat) < (listarRef { movRefs := [1] }).length
    ∧ (readEntries (heapSetMonto heapDos
        ((listarRef { movRefs := [1] }).get ⟨0, by decide⟩) 7) { movRefs := [1] }).get? 0
      = some ((heapDos.get? ((listarRef { movRefs := [1] }).get ⟨0, by decide⟩)).map
          fun m => { m with monto := 7 }) :=
  ⟨by decide, (listar_shallow_copy heapDos { movRefs := [1] } 0 7 (by decide)).2⟩

theorem lookupV_eq_none (t : List (String × ℚ)) (c : String) :
    lookupV t c = none ↔ c ∉ t.map Prod.fst := by
  induction t with
  | nil => simp [lookupV]
  | cons kv rest ih =>
    obtain ⟨k, v⟩ := kv
    by_cases h : k = c
    · subst h
      simp [lookupV]
    · have h' : ¬ c = k := fun hh => h hh.symm
      simp [lookupV, h, h', ih]

theorem lookupV_update (t : List (String × ℚ)) (cat : String) (q : ℚ) (c : String) :
    lookupV (updateTotales t cat q) c =
      if c = cat then some ((lookupV t cat).getD 0 + q) else lookupV t c := by
  induction t with
  | nil =>
    by_cases h : c = cat
    · subst h
      simp [updateTotales, lookupV]
    · have h' : ¬ cat = c := fun hh => h hh.symm
      simp [updateTotales, lookupV, h, h']
  | cons kv rest ih =>
    obtain ⟨k, v⟩ := kv
    by_cases hk : k = cat
    · subst hk
      by_cases hc : c = k
      · subst hc
        simp [updateTotales, lookupV]
      · have hc' : ¬ k = c := fun hh => hc hh.symm
        simp [updateTotales, lookupV, hc, hc']
    · by_cases hc : c = k
      · subst hc
        have hck : ¬ c = cat := fun hh => hk (hh ▸ rfl)
        simp [updateTotales, lookupV, hk, hck]
      · have hc' : ¬ k = c := fun hh => hc hh.symm
        simp [updateTotales, lookupV, hk, hc', ih]

theorem keys_update (t : List (String × ℚ)) (cat : String) (q : ℚ) :
    (updateTotales t cat q).map Prod.fst =
      if cat ∈ t.map Prod.fst then t.map Prod.fst else t.map Prod.fst ++ [cat] := by
  induction t with
  | nil => simp [updateTotales]
  | cons kv rest ih =>
    obtain ⟨k, v⟩ := kv
    by_cases hk : k = cat
    · subst hk
      simp [updateTotales]
    · have hck : ¬ cat = k := fun hh => hk hh.symm
      by_cases hm : cat ∈ rest.map Prod.fst
      · simp [updateTotales, hk, ih, hm, hck]
      · simp [updateTotales, hk, ih, hm, hck]

theorem keys_update_nodup (t : List (String × ℚ)) (cat : String) (q : ℚ)
    (h : (t.map Prod.fst).Nodup) : ((updateTotales t cat q).map Prod.fst).Nodup := by
  rw [keys_update]
  by_cases hm : cat ∈ t.map Prod.fst
  · simpa [hm] using h
  · simp [hm, List.nodup_append, h, List.disjoint_singleton]

theorem sumKindCat_cons_pos (m : Movimiento) (rest : List Movimiento) (tipo c : String)
    (h1 : m.tipo = tipo) (h2 : m.categoria = c) :
    sumKindCat (m :: rest) tipo c = m.monto + sumKindCat rest tipo c := by
  simp [sumKindCat, List.filter_cons, h1, h2]

theorem sumKindCat_cons_neg (m : Movimiento) (rest : List Movimiento) (tipo c : String)
    (h : ¬(m.tipo = tipo ∧ m.categoria = c)) :
    sumKindCat (m :: rest) tipo c = sumKindCat rest tipo c := by
  simp only [sumKindCat, List.filter_cons, Bool.and_eq_true, beq_iff_eq]
  rw [if_neg h]

theorem totalesOf_cons_pos (tipo : String) (m : Movimiento) (rest : List Movimiento)
    (t : List (String × ℚ)) (ht : m.tipo = tipo) :
    totalesOf tipo (m :: rest) t = totalesOf tipo rest (updateTotales t m.categoria m.monto) := by
  simp [totalesOf, ht]

theorem totalesOf_cons_neg (tipo : String) (m : Movimiento) (rest : List Movimiento)
    (t : List (String × ℚ)) (ht : ¬ m.tipo = tipo) :
    totalesOf tipo (m :: rest) t = totalesOf tipo rest t := by
  simp [totalesOf, ht]

theorem totalesOf_lookup (tipo : String) (ms : List Movimiento) :
    ∀ (t : List (String × ℚ)) (c : String),
      lookupV (totalesOf tipo ms t) c =
        match lookupV t c with
        | some v => some (v + sumKindCat ms tipo c)
        | none =>
          if ∃ m ∈ ms, m.tipo = tipo ∧ m.categoria = c then some (sumKindCat ms tipo c)
          else none := by
  induction ms with
  | nil =>
    intro t c
    cases h : lookupV t c <;> simp [totalesOf, sumKindCat, h]
  | cons m rest ih =>
    intro t c
    by_cases ht : m.tipo = tipo
    · by_cases hc : m.categoria = c
      · subst hc
        have hupd : lookupV (updateTotales t m.categoria m.monto) m.categoria
            = some ((lookupV t m.categoria).getD 0 + m.monto) := by
          rw [lookupV_update, if_pos rfl]
        rw [totalesOf_cons_pos tipo m rest t ht, ih, hupd,
          sumKindCat_cons_pos m rest tipo m.categoria ht rfl]
        cases hl : lookupV t m.categoria with
        | none => simp [hl, ht, zero_add]
        | some v => simp [hl, add_assoc]
      · have hc' : ¬ c = m.categoria := fun hh => hc hh.symm
        have hupd : lookupV (updateTotales t m.categoria m.monto) c = lookupV t c := by
          rw [lookupV_update, if_neg hc']
        rw [totalesOf_cons_pos tipo m rest t ht, ih, hupd,
          sumKindCat_cons_neg m rest tipo c (fun hand => hc hand.2)]
        have hiff : (∃ m' ∈ m :: rest, m'.tipo = tipo ∧ m'.categoria = c)
            ↔ (∃ m' ∈ rest, m'.tipo = tipo ∧ m'.categoria = c) := by
          constructor
          · rintro ⟨m', hm', h1, h2⟩
            rcases List.mem_cons.mp hm' with rfl | hmem
            · exact absurd h2 hc
            · exact ⟨m', hmem, h1, h2⟩
          · rintro ⟨m', hm', h1, h2⟩
            exact ⟨m', List.mem_cons_of_mem m hm', h1, h2⟩
        cases hl : lookupV t c with
        | some v => simp [hl]
        | none => simp only [hl, hiff]
    · rw [totalesOf_cons_neg tipo m rest t ht, ih,
        sumKindCat_cons_neg m rest tipo c (fun hand => ht hand.1)]
      have hiff : (∃ m' ∈ m :: rest, m'.tipo = tipo ∧ m'.categoria = c)
          ↔ (∃ m' ∈ rest, m'.tipo = tipo ∧ m'.categoria = c) := by
        constructor
        · rintro ⟨m', hm', h1, h2⟩
          rcases List.mem_cons.mp hm' with rfl | hmem
          · exact absurd h1 ht
          · exact ⟨m', hmem, h1, h2⟩
        · rintro ⟨m', hm', h1, h2⟩
          exact ⟨m', List.mem_cons_of_mem m hm', h1, h2⟩
      cases hl : lookupV t c with
      | some v => simp [hl]
      | none => simp only [hl, hiff]

theorem totalesOf_keys_nodup (tipo : String) (ms : List Movimiento) :
    ∀ t : List (String × ℚ), (t.map Prod.fst).Nodup →
      ((totalesOf tipo ms t).map Prod.fst).Nodup := by
  induction ms with
  | nil => exact fun t h => h
  | cons m rest ih =>
    intro t h
    by_cases ht : m.tipo = tipo
    · rw [totalesOf_cons_pos tipo m rest t ht]
      exact ih _ (keys_update_nodup t m.categoria m.monto h)
    · rw [totalesOf_cons_neg tipo m rest t ht]
      exact ih _ h

theorem totalesOf_keys (tipo : String) (ms : List Movimiento) (c : String) :
    c ∈ (totalesOf tipo ms []).map Prod.fst
      ↔ ∃ m ∈ ms, m.tipo = tipo ∧ m.categoria = c := by
  have h := totalesOf_lookup tipo ms [] c
  simp only [lookupV] at h
  constructor
  · intro hc
    by_contra hex
    rw [if_neg hex] at h
    exact (lookupV_eq_none _ _ |>.mp h) hc
  · intro hex
    rw [if_pos hex] at h
    by_contra hnone
    rw [(lookupV_eq_none _ _).mpr hnone] at h
    cases h

theorem lookupV_of_mem (t : List (String × ℚ)) (c : String) (v : ℚ)
    (hnd : (t.map Prod.fst).Nodup) (hm : (c, v) ∈ t) : lookupV t c = some v := by
  induction t with
  | nil => cases hm
  | cons kv rest ih =>
    obtain ⟨k, w⟩ := kv
    rcases List.mem_cons.mp hm with h | h
    · cases h
      simp [lookupV]
    · have hk : ¬ k = c := by
        intro he
        subst he
        have hmem : k ∈ rest.map Prod.fst := by
          have := List.mem_map_of_mem Prod.fst h
          simpa using this
        exact (List.nodup_cons.mp (by simpa using hnd)).1 hmem
      have hnd' : (rest.map Prod.fst).Nodup := (List.nodup_cons.mp (by simpa using hnd)).2
      simp [lookupV, hk, ih hnd' h]

/-- C5: for a valid kind, `resumen_por_categoria` returns, with no error, the
association list `categoriaOut`: its keys are strictly ascending in the
lexicographic string order and are exactly the categories of the entries of
that kind, each key carries the rounded sum of the amounts of that kind and
category, an invalid kind is rejected with `invalidKind`, and on the claim's
example ledger it returns food 15.00, rent 20.00 in that order. -/
theorem resumen_por_categoria_spec (g : Gestor) (tipo : String)
    (hk : tipo = "ingreso" ∨ tipo = "gasto") :
    (resumen_por_categoria g tipo).2 = Except.ok (categoriaOut g.movimientos tipo)
    ∧ List.Sorted (fun a b => a < b) ((categoriaOut g.movimientos tipo).map Prod.fst)
    ∧ (∀ c, c ∈ (categoriaOut g.movimientos tipo).map Prod.fst
        ↔ ∃ m ∈ g.movimientos, m.tipo = tipo ∧ m.categoria = c)
    ∧ (∀ c v, (c, v) ∈ categoriaOut g.movimientos tipo
        → v = pyRound2 (sumKindCat g.movimientos tipo c))
    ∧ (∀ t', ¬(t' = "ingreso" ∨ t' = "gasto")
        → (resumen_por_categoria g t').2 = Except.error Err.invalidKind)
    ∧ (resumen_por_categoria gestorCategorias ("gasto")).2
      = Except.ok [("food", 15), ("rent", 20)] := by
  letI : IsTotal (String × ℚ) (fun p q => p.1 ≤ q.1) := ⟨fun a b => le_total a.1 b.1⟩
  letI : IsTrans (String × ℚ) (fun p q => p.1 ≤ q.1) := ⟨fun a b c hab hbc => le_trans hab hbc⟩
  have hperm : List.Perm
      ((totalesOf tipo g.movimientos []).insertionSort fun p q => p.1 ≤ q.1)
      (totalesOf tipo g.movimientos []) :=
    List.perm_insertionSort _ _
  have hnd : (((totalesOf tipo g.movimientos []).insertionSort
      fun p q => p.1 ≤ q.1).map Prod.fst).Nodup :=
    ((hperm.map Prod.fst).nodup_iff).mpr (totalesOf_keys_nodup tipo g.movimientos [] (by simp))
  have hkeys : (categoriaOut g.movimientos tipo).map Prod.fst
      = ((totalesOf tipo g.movimientos []).insertionSort
          fun p q => p.1 ≤ q.1).map Prod.fst := by
    simp [categoriaOut, List.map_map, Function.comp_def]
  refine ⟨?_, ?_, ?_, ?_, ?_, ?_⟩
  · unfold resumen_por_categoria
    rw [if_neg (not_not_intro hk)]
  · rw [hkeys]
    have hsorted := List.sorted_insertionSort (fun p q : String × ℚ => p.1 ≤ q.1)
      (totalesOf tipo g.movimientos [])
    have hle : List.Pairwise (fun a b : String => a ≤ b)
        (((totalesOf tipo g.movimientos []).insertionSort
          fun p q => p.1 ≤ q.1).map Prod.fst) :=
      List.Pairwise.map Prod.fst (fun a b hab => hab) hsorted
    have hne : List.Pairwise (fun a b : String => a ≠ b)
        (((totalesOf tipo g.movimientos []).insertionSort
          fun p q => p.1 ≤ q.1).map Prod.fst) := hnd
    exact (hle.and hne).imp fun hab => lt_of_le_of_ne hab.1 hab.2
  · intro c
    rw [hkeys]
    have hm : c ∈ ((totalesOf tipo g.movimientos []).insertionSort
        fun p q => p.1 ≤ q.1).map Prod.fst
        ↔ c ∈ (totalesOf tipo g.movimientos []).map Prod.fst :=
      (hperm.map Prod.fst).mem_iff
    rw [hm]
    exact totalesOf_keys tipo g.movimientos c
  · intro c v hcv
    obtain ⟨p, hp, he⟩ := List.mem_map.mp hcv
    obtain ⟨he1, he2⟩ := Prod.mk.injEq .. ▸ he
    have hpt : p ∈ totalesOf tipo g.movimientos [] := hperm.subset hp
    have hlook : lookupV (totalesOf tipo g.movimientos []) p.1 = some p.2 :=
      lookupV_of_mem _ p.1 p.2 (totalesOf_keys_nodup tipo g.movimientos [] (by simp))
        (by simpa using hpt)
    have h := totalesOf_lookup tipo g.movimientos [] p.1
    simp only [lookupV] at h
    rw [hlook] at h
    by_cases hex : ∃ m ∈ g.movimientos, m.tipo = tipo ∧ m.categoria = p.1
    · rw [if_pos hex] at h
      have hv : p.2 = sumKindCat g.movimientos tipo p.1 := by
        injection h.symm with hh
        exact hh.symm
      subst he1
      subst he2
      rw [hv]
    · rw [if_neg hex] at h
      cases h
  · intro t' ht'
    unfold resumen_por_categoria
    rw [if_pos ht']
  · have hv : ¬¬(("gasto" : String) = "ingreso" ∨ ("gasto" : String) = "gasto") :=
      not_not_intro (Or.inr rfl)
    have hle : (("food" : String) ≤ ("rent" : String)) := by
      simp
      decide
    have e15 : pyRound2 15 = 15 := by norm_num [pyRound2, roundHalfEvenInt]
    have e20 : pyRound2 20 = 20 := by norm_num [pyRound2, roundHalfEvenInt]
    unfold resumen_por_categoria
    rw [if_neg hv]
    norm_num [categoriaOut, gestorCategorias, totalesOf, updateTotales,
      List.insertionSort, List.orderedInsert, hle, e15, e20]

/-- Concrete run of C5: on the example ledger, the expense summary by
category is food 15.00 then rent 20.00, keys ascending. -/
theorem resumen_por_categoria_spec_witness :
    (("gasto" : String) = "ingreso" ∨ ("gasto" : String) = "gasto")
    ∧ (resumen_por_categoria gestorCategorias ("gasto")).2
      = Except.ok (categoriaOut gestorCategorias.movimientos ("gasto"))
    ∧ (resumen_por_categoria gestorCategorias ("gasto")).2
      = Except.ok [("food", 15), ("rent", 20)] := by
  have h := resumen_por_categoria_spec gestorCategorias ("gasto") (Or.inr rfl)
  exact ⟨Or.inr rfl, h.1, h.2.2.2.2.2⟩

end Finanzas
